import Mathlib

/-!
Verification of the filter/chunk/render/archive pipeline of
`idu_xml_generator_app.py` (IDU Device Data Processor & XML Generator).

The pipeline works on a pandas `DataFrame`.  We embed a frame as an ordered
list of rows (each row carrying the three fields the pipeline reads) together
with its list of column names.  A cell of a pandas object column is either a
Python string or some non-string value; the pandas `.str` accessor maps
non-string entries to `NaN`, which we model with `Option`.
-/

namespace IduXml

/-- The default whitespace set of Python's `str.strip()` (ASCII part). -/
def pyWhitespace (c : Char) : Bool :=
  c = ' ' || c = '\t' || c = '\n' || c = '\r' || c = '\x0b' || c = '\x0c'

/-- `str.strip()` on a character list: drop leading and trailing whitespace. -/
def trimChars (l : List Char) : List Char :=
  ((l.dropWhile pyWhitespace).reverse.dropWhile pyWhitespace).reverse

/-- Python `s.strip()` on a string. -/
def pstrip (s : String) : String := String.mk (trimChars s.data)

/-- A cell of a pandas object column: a Python `str`, or any non-string
value (`NaN`, a number, ...), of which we only keep its `str(...)` form. -/
inductive PdValue where
  | str (s : String)
  | nonstr (sform : String)
deriving DecidableEq

/-- Python `str(v)` applied to a cell value. -/
def pyStr : PdValue → String
  | .str s => s
  | .nonstr sform => sform

/-- `Series.str.strip()` on one cell: non-string entries become `NaN`. -/
def strStrip : PdValue → Option String
  | .str s => some (pstrip s)
  | .nonstr _ => none

/-- pandas elementwise `== t` on a possibly-`NaN` cell (`NaN == t` is false). -/
def naEq (o : Option String) (t : String) : Bool :=
  match o with
  | some s => s = t
  | none => false

/-- pandas elementwise `!= t` on a possibly-`NaN` cell (`NaN != t` is true). -/
def naNe (o : Option String) (t : String) : Bool :=
  match o with
  | some s => s ≠ t
  | none => true

/-- pandas elementwise `.isin(vs)` on a possibly-`NaN` cell (`NaN` is not in). -/
def naIsin (o : Option String) (vs : List String) : Bool :=
  match o with
  | some s => vs.contains s
  | none => false

/-- One row of the input table, restricted to the three columns the
pipeline reads. -/
structure Row where
  deviceModel : PdValue
  serialNumber : PdValue
  version : PdValue
deriving DecidableEq

/-- The input table: its column names and its rows in order.  Extra columns
beyond the three the pipeline reads are recorded in `columns` only. -/
structure DataFrame where
  columns : List String
  rows : List Row
deriving DecidableEq

/-! Configuration constants of the application. -/

def CHUNK_SIZE : Nat := 25000

def ALLOWED_VERSIONS : List String :=
  ["R2.0.18.2", "R2.0.18", "R2.0.19", "R2.0.19.5", "R2.0.16", "R2.0.19.6"]

def DEVICE_MODELS : List String :=
  ["JIDU6601", "JIDU6611", "JIDU6401", "JIDU6701", "JIDU6801",
   "JIDU6101", "JIDU6111", "JIDU6311", "JIDU6411", "JIDU6811", "JIDU6911"]

def MANUFACTURER_MAP : List (String × String) :=
  [("JIDU6101", "Arcadyan"),
   ("JIDU6111", "Arcadyan"),
   ("JIDU6311", "Bluebank"),
   ("JIDU6401", "Sercomm"),
   ("JIDU6411", "Sercomm"),
   ("JIDU6601", "Speedtech"),
   ("JIDU6611", "Speedtech"),
   ("JIDU6701", "Skyworth"),
   ("JIDU6801", "Telpa"),
   ("JIDU6811", "Telpa"),
   ("JIDU6911", "Askey")]

/-- `validate_data(df)`: check that the required columns are present. -/
def required_columns : List String := ["Device Model", "Serial Number", "Version"]

def validate_data (df : DataFrame) : Bool × String :=
  let missing_columns := required_columns.filter (fun col => !(df.columns.contains col))
  if missing_columns.isEmpty then
    (true, "Data validated successfully")
  else
    (false, "Missing required columns: " ++ String.intercalate ", " missing_columns)

/-- The row filter of `create_chunks`:
`(df['Device Model'].str.strip() == target_model) &
 (df['Serial Number'].str.strip() != '') &
 (df['Version'].str.strip() != '') &
 (df['Version'].str.strip().isin(allowed_versions))`. -/
def rowPasses (target_model : String) (allowed_versions : List String) (r : Row) : Bool :=
  naEq (strStrip r.deviceModel) target_model &&
  naNe (strStrip r.serialNumber) "" &&
  naNe (strStrip r.version) "" &&
  naIsin (strStrip r.version) allowed_versions

/-- `create_chunks(df, target_model, allowed_versions, chunk_size)`: filter the
rows for this model, then slice the filtered frame into consecutive
`iloc[start:end]` windows, `num_chunks = ceil(len/chunk_size)` of them. -/
def create_chunks (df : DataFrame) (target_model : String)
    (allowed_versions : List String) (chunk_size : Nat) : List (List Row) :=
  let filtered := df.rows.filter (rowPasses target_model allowed_versions)
  if filtered.isEmpty then []
  else
    let num_chunks := (filtered.length + chunk_size - 1) / chunk_size
    (List.range num_chunks).map (fun i =>
      let start_idx := i * chunk_size
      let end_idx := min ((i + 1) * chunk_size) filtered.length
      (filtered.drop start_idx).take (end_idx - start_idx))

/-- The call `create_chunks(df, ...)` paired with the state of the input
table object after the call.  Every pandas operation the function performs on
`df` (boolean-mask selection, `.copy()`, `.iloc` slicing, `len`) reads `df`
and allocates fresh objects; none writes to `df`, so the table after the
call is the table that was passed in. -/
def create_chunks_state (df : DataFrame) (target_model : String)
    (allowed_versions : List String) (chunk_size : Nat) :
    List (List Row) × DataFrame :=
  (create_chunks df target_model allowed_versions chunk_size, df)

/-! The XML renderer.

`generate_xml_from_chunk` builds an ElementTree `serials` element whose
children are `serial` elements (attributes `Model`, `Manufacturer`, text the
stripped serial number, empty serials skipped), serialises it, re-parses it
with minidom and calls `toprettyxml(indent="  ")`, then drops blank lines and
`<?xml` lines from the pretty string and puts its own declaration on top.

The composite of ElementTree serialisation, minidom parsing and minidom
`writexml` escapes `&`, `<`, `"`, `>` in attribute values and in text (and
nothing else), writes attributes in document order (`Model` first), writes an
element whose single child is a text node on one line, writes a childless
root as `<serials/>`, indents children by the `indent` argument and ends
every line (and the leading `<?xml version="1.0" ?>` declaration) with
a newline.  We model the pretty string through these rules. -/

/-- minidom escaping of attribute values and text: `&`, `<`, `"`, `>`. -/
def escChar (c : Char) : List Char :=
  if c = '&' then ['&', 'a', 'm', 'p', ';']
  else if c = '<' then ['&', 'l', 't', ';']
  else if c = '"' then ['&', 'q', 'u', 'o', 't', ';']
  else if c = '>' then ['&', 'g', 't', ';']
  else [c]

def esc (s : String) : List Char := s.data.flatMap escChar

/-- One pretty-printed `serial` element, as minidom writes it: two-space
indent, `Model` then `Manufacturer` attribute, text content.
`serial_number` is the text as it stands in the parsed DOM, i.e. already
end-of-line-normalized by expat.  Attribute values are not normalized:
ElementTree writes `\t`/`\n`/`\r` in attribute values as character
references, which expat restores verbatim and minidom re-emits raw. -/
def serialLine (device_model manufacturer serial_number : String) : List Char :=
  "  <serial Model=\"".data ++ esc device_model ++
  "\" Manufacturer=\"".data ++ esc manufacturer ++
  "\">".data ++ esc serial_number ++ "</serial>".data

/-- XML 1.0 §2.2 `Char`: the characters expat accepts; anything else in the
serialized stream (e.g. `\x0b` in text, which `strip()` leaves when
interior) makes `minidom.parseString` raise `ExpatError`. -/
def xmlValidChar (c : Char) : Bool :=
  c = '\t' || c = '\n' || c = '\r' ||
  (0x20 ≤ c.toNat && c.toNat ≤ 0xD7FF) ||
  (0xE000 ≤ c.toNat && c.toNat ≤ 0xFFFD) ||
  (0x10000 ≤ c.toNat && c.toNat ≤ 0x10FFFF)

/-- XML 1.0 §2.11 end-of-line normalization, applied by expat to character
data: `\r\n` becomes `\n` and a lone `\r` becomes `\n`.  ElementTree's text
escaping leaves `\r` raw in the serialized stream, so serial text reaching
the DOM is normalized; attribute values are written as character references
and escape normalization. -/
def eolNormAux (prevCr : Bool) : List Char → List Char
  | [] => []
  | c :: rest =>
    if c = '\r' then '\n' :: eolNormAux true rest
    else if c = '\n' then
      (if prevCr then eolNormAux false rest else '\n' :: eolNormAux false rest)
    else c :: eolNormAux false rest

def eolNorm (l : List Char) : List Char := eolNormAux false l

/-- The stripped serial numbers the renderer's loop emits as `serial`
children: `str(row['Serial Number']).strip()` for each row, in order,
keeping only the truthy (non-empty) ones. -/
def chunkSerials (chunk_df : List Row) : List String :=
  (chunk_df.map (fun row => pstrip (pyStr row.serialNumber))).filter
    (fun s => !s.isEmpty)

/-- The minidom declaration line `toprettyxml` puts first. -/
def MINIDOM_DECL : List Char := "<?xml version=\"1.0\" ?>".data

/-- The lines of `dom.toprettyxml(indent="  ")` (split at `'\n'`; the
trailing newline of the pretty string yields a final empty line).  Each
serial's text content passes through expat's end-of-line normalization on
the way into the DOM. -/
def prettyLines (chunk_df : List Row) (device_model manufacturer : String) :
    List (List Char) :=
  let serials := chunkSerials chunk_df
  let body :=
    if serials.isEmpty then ["<serials/>".data]
    else "<serials>".data ::
      (serials.map (fun sn =>
        serialLine device_model manufacturer (String.mk (eolNorm sn.data))) ++
        ["</serials>".data])
  (MINIDOM_DECL :: body) ++ [[]]

/-- `'\n'.join(ls)`. -/
def joinNl : List (List Char) → List Char
  | [] => []
  | [l] => l
  | l :: l' :: ls => l ++ '\n' :: joinNl (l' :: ls)

/-- `s.split('\n')`. -/
def splitNl : List Char → List (List Char)
  | [] => [[]]
  | c :: rest =>
    if c = '\n' then [] :: splitNl rest
    else
      match splitNl rest with
      | [] => [[c]]
      | l :: ls => (c :: l) :: ls

/-- The declaration the application itself puts on top. -/
def XML_DECL : String := "<?xml version=\"1.0\" encoding=\"UTF-8\"?>"

/-- `generate_xml_from_chunk(chunk_df, device_model, chunk_number)`: the
document a completed (non-raising) run returns.
(`chunk_number` is a parameter of the original function but unused by it.) -/
def generate_xml_from_chunk (chunk_df : List Row) (device_model : String)
    (chunk_number : Nat) : String :=
  let manufacturer := ((MANUFACTURER_MAP.lookup device_model).getD "Unknown")
  let pretty_xml := joinNl (prettyLines chunk_df device_model manufacturer)
  let lines := splitNl pretty_xml
  let kept := lines.filter (fun line =>
    !(trimChars line).isEmpty && !(("<?xml".data).isPrefixOf (trimChars line)))
  String.mk (XML_DECL.data ++ '\n' :: joinNl kept)

/-- Whether `minidom.parseString` accepts the serialized tree: every
character of the attribute values and of every emitted serial text must be
an XML 1.0 character (markup and escape entities are always valid). -/
def expatAccepts (chunk_df : List Row) (device_model : String) : Bool :=
  device_model.data.all xmlValidChar &&
  ((MANUFACTURER_MAP.lookup device_model).getD "Unknown").data.all xmlValidChar &&
  (chunkSerials chunk_df).all (fun s => s.data.all xmlValidChar)

/-- The call `generate_xml_from_chunk(...)` with minidom's error path:
`none` models the `ExpatError` raised on XML-invalid characters. -/
def generate_xml_from_chunk_checked (chunk_df : List Row)
    (device_model : String) (chunk_number : Nat) : Option String :=
  if expatAccepts chunk_df device_model then
    some (generate_xml_from_chunk chunk_df device_model chunk_number)
  else none

/-- Decimal digits of `n`, least significant first (Python `str(int)`). -/
def natReprAux (n : Nat) : List Char :=
  if h : n < 10 then [Nat.digitChar n]
  else Nat.digitChar (n % 10) :: natReprAux (n / 10)
decreasing_by exact Nat.div_lt_self (by omega) (by omega)

/-- Python `str(n)` for a natural number. -/
def natRepr (n : Nat) : String := String.mk (natReprAux n).reverse

/-- The f-string `f"{device_model}_Chunk{chunk_num}.xml"`. -/
def chunkFilename (device_model : String) (chunk_num : Nat) : String :=
  device_model ++ "_Chunk" ++ natRepr chunk_num ++ ".xml"

/-- `process_data_to_xml(df)`: for each device model in declaration order,
chunk, and when chunks exist render each one (`enumerate(chunks, 1)`) into a
`(filename, xml_content)` pair; the resulting dict (insertion-ordered, so an
association list) maps each such model to its pair list. -/
def process_data_to_xml (df : DataFrame) : List (String × List (String × String)) :=
  DEVICE_MODELS.filterMap (fun device_model =>
    let chunks := create_chunks df device_model ALLOWED_VERSIONS CHUNK_SIZE
    if chunks.isEmpty then none
    else some (device_model,
      (List.enumFrom 1 chunks).map (fun p =>
        (chunkFilename device_model p.1,
         generate_xml_from_chunk p.2 device_model p.1))))

/-- `create_zip_file(xml_files_dict)`: the archive, modelled as its ordered
list of entries.  The loop calls `zipf.writestr(filename, xml_content)` once
per pair, each call appending one entry with exactly that name and content;
an empty dict yields an archive with no entries. -/
def create_zip_file (xml_files_dict : List (String × List (String × String))) :
    List (String × String) :=
  xml_files_dict.flatMap (fun files => files.2)

/-! A reference XML reader for the round-trip property: split the document
into lines, expect the declaration, the `serials` root, and one `serial`
element per line, and recover each element's `Model` and `Manufacturer`
attributes and its unescaped text content. -/

/-- Remove the expected opening `p` from `l`. -/
def dropPre (p l : List Char) : Option (List Char) :=
  if p.isPrefixOf l then some (l.drop p.length) else none

/-- Split `l` at its first `'"'`: the part before it and the part after it. -/
def splitAtQuote : List Char → Option (List Char × List Char)
  | [] => none
  | c :: rest =>
    if c = '"' then some ([], rest)
    else (splitAtQuote rest).map (fun p => (c :: p.1, p.2))

/-- Undo `escChar` escaping. -/
def unescChars (l : List Char) : List Char :=
  match l with
  | [] => []
  | c :: rest =>
    if c = '&' then
      if ['a', 'm', 'p', ';'].isPrefixOf rest then '&' :: unescChars (rest.drop 4)
      else if ['l', 't', ';'].isPrefixOf rest then '<' :: unescChars (rest.drop 3)
      else if ['g', 't', ';'].isPrefixOf rest then '>' :: unescChars (rest.drop 3)
      else if ['q', 'u', 'o', 't', ';'].isPrefixOf rest then
        '"' :: unescChars (rest.drop 5)
      else c :: unescChars rest
    else c :: unescChars rest
termination_by l.length
decreasing_by
  all_goals simp [List.length_drop]
  all_goals omega

/-- Read one `serial` line back into `(Model, Manufacturer, text)`. -/
def parseSerialLine (l : List Char) : Option (String × String × String) :=
  match dropPre "  <serial Model=\"".data l with
  | none => none
  | some r1 =>
    match splitAtQuote r1 with
    | none => none
    | some (m, r2) =>
      match dropPre " Manufacturer=\"".data r2 with
      | none => none
      | some r3 =>
        match splitAtQuote r3 with
        | none => none
        | some (f, r4) =>
          match dropPre ">".data r4 with
          | none => none
          | some r5 =>
            if r5.drop (r5.length - 9) = "</serial>".data then
              some (String.mk (unescChars m), String.mk (unescChars f),
                    String.mk (unescChars (r5.take (r5.length - 9))))
            else none

/-- Read the lines between `<serials>` and `</serials>` (inclusive). -/
def parseSerialLines : List (List Char) → Option (List (String × String × String))
  | [] => none
  | [l] => if l = "</serials>".data then some [] else none
  | l :: l' :: rest =>
    match parseSerialLine l with
    | none => none
    | some t =>
      match parseSerialLines (l' :: rest) with
      | none => none
      | some ts => some (t :: ts)

/-- Read a rendered document back into its `(Model, Manufacturer, text)`
triples, in document order. -/
def parseXmlDoc (s : String) : Option (List (String × String × String)) :=
  match splitNl s.data with
  | [] => none
  | decl :: body =>
    if decl = XML_DECL.data then
      match body with
      | [] => none
      | [l] => if l = "<serials/>".data then some [] else none
      | l :: l' :: rest =>
        if l = "<serials>".data then parseSerialLines (l' :: rest) else none
    else none

/-- The lines a rendered document consists of after its declaration line:
the childless root alone, or the root tags around one `serial` line per
emitted serial (text end-of-line-normalized). -/
def bodyLines (chunk_df : List Row) (device_model : String) : List (List Char) :=
  let manufacturer := (MANUFACTURER_MAP.lookup device_model).getD "Unknown"
  if (chunkSerials chunk_df).isEmpty then ["<serials/>".data]
  else "<serials>".data ::
    ((chunkSerials chunk_df).map (fun sn =>
      serialLine device_model manufacturer (String.mk (eolNorm sn.data))) ++
      ["</serials>".data])

/-- The decimal value of a digit character. -/
def digitVal (c : Char) : Nat := c.toNat - 48

/-- Read a digit list (least significant first) back into its value. -/
def evalRev : List Char → Nat
  | [] => 0
  | c :: cs => digitVal c + 10 * evalRev cs

/-! Helper lemmas about the chunking arithmetic. -/

lemma take_window {α : Type} (l : List α) (s i : Nat) :
    (l.drop (i * s)).take (min ((i + 1) * s) l.length - i * s) =
    (l.drop (i * s)).take s := by
  rcases Nat.le_total ((i + 1) * s) l.length with h | h
  · rw [min_eq_left h, Nat.succ_mul, Nat.add_sub_cancel_left]
  · rw [min_eq_right h,
      List.take_of_length_le (by rw [List.length_drop]),
      List.take_of_length_le
        (by rw [List.length_drop]
            have h' : (i + 1) * s = i * s + s := by ring
            omega)]

lemma chunks_flatten_aux {α : Type} (cs : Nat) :
    ∀ (k : Nat) (l : List α), l.length ≤ k * cs →
      ((List.range k).map (fun i => (l.drop (i * cs)).take cs)).flatten = l := by
  intro k
  induction k with
  | zero =>
    intro l hl
    simp only [Nat.zero_mul, Nat.le_zero, List.length_eq_zero] at hl
    simp [hl]
  | succ k ih =>
    intro l hl
    rw [List.range_succ_eq_map, List.map_cons, List.map_map, List.flatten_cons]
    have hmap : (List.range k).map ((fun i => (l.drop (i * cs)).take cs) ∘ Nat.succ) =
        (List.range k).map (fun i => ((l.drop cs).drop (i * cs)).take cs) := by
      apply List.map_congr_left
      intro a _
      simp only [Function.comp_apply]
      rw [List.drop_drop]
      congr 2
      rw [Nat.succ_mul]
      omega
    rw [hmap, ih (l.drop cs)
      (by rw [List.length_drop]
          have h' : (k + 1) * cs = k * cs + cs := by ring
          omega)]
    simp [List.take_append_drop]

lemma ceil_div_eq (n s : Nat) (hs : 0 < s) :
    (n + s - 1) / s = n / s + (if n % s = 0 then 0 else 1) := by
  have hdm : s * (n / s) + n % s = n := Nat.div_add_mod n s
  have hml : n % s < s := Nat.mod_lt _ hs
  by_cases h : n % s = 0
  · rw [if_pos h, Nat.add_zero]
    have h1 : n + s - 1 = s * (n / s) + (s - 1) := by omega
    rw [h1, Nat.mul_add_div hs, Nat.div_eq_of_lt (show s - 1 < s by omega),
      Nat.add_zero]
  · rw [if_neg h]
    have h2 : s * (n / s + 1) = s * (n / s) + s := by ring
    have h1 : n + s - 1 = s * (n / s + 1) + (n % s - 1) := by omega
    rw [h1, Nat.mul_add_div hs,
      Nat.div_eq_of_lt (show n % s - 1 < s by omega), Nat.add_zero]

lemma ceil_facts (n s : Nat) (hs : 0 < s) (hn : 0 < n) :
    n ≤ ((n + s - 1) / s) * s ∧ (((n + s - 1) / s) - 1) * s < n ∧
    0 < (n + s - 1) / s := by
  have hdm : s * (n / s) + n % s = n := Nat.div_add_mod n s
  have hml : n % s < s := Nat.mod_lt _ hs
  rw [ceil_div_eq n s hs]
  by_cases h : n % s = 0
  · rw [if_pos h, Nat.add_zero]
    have h0 : 0 < n / s := by
      rcases Nat.eq_zero_or_pos (n / s) with h0 | h0
      · rw [h0, Nat.mul_zero] at hdm; omega
      · exact h0
    have e1 : (n / s) * s = s * (n / s) := Nat.mul_comm _ _
    have e2 : (n / s - 1) * s = (n / s) * s - 1 * s := Nat.sub_mul _ _ _
    have e3 : 1 * s = s := Nat.one_mul s
    refine ⟨by omega, by omega, by omega⟩
  · rw [if_neg h]
    have e1 : (n / s + 1) * s = (n / s) * s + 1 * s := Nat.add_mul _ _ _
    have e2 : (n / s) * s = s * (n / s) := Nat.mul_comm _ _
    have e3 : 1 * s = s := Nat.one_mul s
    have e4 : n / s + 1 - 1 = n / s := Nat.add_sub_cancel _ _
    rw [e4]
    refine ⟨by omega, by omega, Nat.succ_pos _⟩

lemma create_chunks_eq (df : DataFrame) (m : String) (a : List String) (s : Nat)
    (h : df.rows.filter (rowPasses m a) ≠ []) :
    create_chunks df m a s =
      (List.range (((df.rows.filter (rowPasses m a)).length + s - 1) / s)).map
        (fun i => ((df.rows.filter (rowPasses m a)).drop (i * s)).take s) := by
  unfold create_chunks
  rw [if_neg (by simpa [List.isEmpty_iff] using h)]
  apply List.map_congr_left
  intro i _
  exact take_window _ s i

lemma create_chunks_flatten (df : DataFrame) (m : String) (a : List String)
    {s : Nat} (hs : 0 < s) :
    (create_chunks df m a s).flatten = df.rows.filter (rowPasses m a) := by
  by_cases h : df.rows.filter (rowPasses m a) = []
  · unfold create_chunks
    rw [if_pos (by simp [List.isEmpty_iff, h])]
    simp [h]
  · rw [create_chunks_eq df m a s h]
    apply chunks_flatten_aux
    have hn : 0 < (df.rows.filter (rowPasses m a)).length := List.length_pos.mpr h
    exact (ceil_facts _ s hs hn).1

lemma create_chunks_length (df : DataFrame) (m : String) (a : List String)
    {s : Nat} (hne : df.rows.filter (rowPasses m a) ≠ []) :
    (create_chunks df m a s).length =
      ((df.rows.filter (rowPasses m a)).length + s - 1) / s := by
  rw [create_chunks_eq df m a s hne]
  simp

lemma create_chunks_getElem (df : DataFrame) (m : String) (a : List String)
    {s : Nat} (hne : df.rows.filter (rowPasses m a) ≠ []) (i : Nat)
    (h : i < (create_chunks df m a s).length) :
    (create_chunks df m a s)[i] =
      ((df.rows.filter (rowPasses m a)).drop (i * s)).take s := by
  have heq := create_chunks_eq df m a s hne
  simp only [heq, List.getElem_map, List.getElem_range]

/-- C1: a row of the table appears in some chunk returned by
`create_chunks df M allowed_versions chunk_size` iff its trimmed device
model equals `M` exactly (string equality is case sensitive), its trimmed
serial number is non-empty, its trimmed version is non-empty, and its
trimmed version is a member of the allowed-version list.  Stated for rows
whose three cells are strings (non-string cells are the subject of the
coercion claim), and for a positive chunk size (Python raises
`ZeroDivisionError` on chunk size 0). -/
theorem create_chunks_membership (df : DataFrame) (M : String)
    (a : List String) (s : Nat) (hs : 0 < s) (r : Row) (hr : r ∈ df.rows)
    (dm sn v : String) (hdm : r.deviceModel = PdValue.str dm)
    (hsn : r.serialNumber = PdValue.str sn) (hv : r.version = PdValue.str v) :
    (∃ c ∈ create_chunks df M a s, r ∈ c) ↔
      (pstrip dm = M ∧ pstrip sn ≠ "" ∧ pstrip v ≠ "" ∧ pstrip v ∈ a) := by
  have hj := create_chunks_flatten df M a hs
  have hmem : (∃ c ∈ create_chunks df M a s, r ∈ c) ↔
      r ∈ (create_chunks df M a s).flatten := by
    rw [List.mem_flatten]
  rw [hmem, hj, List.mem_filter]
  simp [hr, rowPasses, hdm, hsn, hv, strStrip, naEq, naNe, naIsin,
    List.contains, List.elem_iff, and_assoc]

theorem create_chunks_membership_witness :
    (0 : Nat) < 25000 ∧
    ((∃ c ∈ create_chunks
        ⟨required_columns, [⟨.str " JIDU6601 ", .str " SN1 ", .str "R2.0.19"⟩]⟩
        "JIDU6601" ALLOWED_VERSIONS 25000,
        (⟨.str " JIDU6601 ", .str " SN1 ", .str "R2.0.19"⟩ : Row) ∈ c) ↔
      (pstrip " JIDU6601 " = "JIDU6601" ∧ pstrip " SN1 " ≠ "" ∧
       pstrip "R2.0.19" ≠ "" ∧ pstrip "R2.0.19" ∈ ALLOWED_VERSIONS)) :=
  ⟨by decide,
   create_chunks_membership _ "JIDU6601" ALLOWED_VERSIONS 25000 (by decide) _
     (List.mem_singleton.mpr rfl) _ _ _ rfl rfl rfl⟩

/-- C2: for a non-empty filtered row set of size `n` and chunk size `s > 0`,
`create_chunks` returns exactly `ceil (n / s)` chunks (written
`n / s + (if n % s = 0 then 0 else 1)`); every chunk except possibly the
last has exactly `s` rows and the last has `n % s` rows (or `s` when the
remainder is 0); the chunks concatenate, in order, to the filtered row
sequence; and the total row count across the chunks is `n`. -/
theorem create_chunks_sizes (df : DataFrame) (m : String) (a : List String)
    (s : Nat) (hs : 0 < s)
    (hne : df.rows.filter (rowPasses m a) ≠ []) :
    (create_chunks df m a s).length =
      (df.rows.filter (rowPasses m a)).length / s +
        (if (df.rows.filter (rowPasses m a)).length % s = 0 then 0 else 1) ∧
    (∀ i, (h : i < (create_chunks df m a s).length) →
      ((create_chunks df m a s)[i]).length =
        (if i + 1 < (create_chunks df m a s).length then s
         else if (df.rows.filter (rowPasses m a)).length % s = 0 then s
         else (df.rows.filter (rowPasses m a)).length % s)) ∧
    (create_chunks df m a s).flatten = df.rows.filter (rowPasses m a) ∧
    ((create_chunks df m a s).map List.length).sum =
      (df.rows.filter (rowPasses m a)).length := by
  have hn : 0 < (df.rows.filter (rowPasses m a)).length :=
    List.length_pos.mpr hne
  have hflat := create_chunks_flatten df m a (s := s) hs
  have hcf := ceil_facts (df.rows.filter (rowPasses m a)).length s hs hn
  have hlen := create_chunks_length df m a (s := s) hne
  refine ⟨by rw [hlen]; exact ceil_div_eq _ s hs, ?_, hflat, ?_⟩
  · intro i h
    rw [create_chunks_getElem df m a hne i h]
    simp only [List.length_take, List.length_drop]
    rw [hlen] at h
    set n := (df.rows.filter (rowPasses m a)).length with hndef
    set k := (n + s - 1) / s with hkdef
    rw [hlen]
    have hdm : s * (n / s) + n % s = n := Nat.div_add_mod n s
    have hml : n % s < s := Nat.mod_lt _ hs
    have hk : k = n / s + (if n % s = 0 then 0 else 1) := ceil_div_eq n s hs
    obtain ⟨q, hq⟩ : ∃ q, n / s = q := ⟨_, rfl⟩
    obtain ⟨r, hrr⟩ : ∃ r, n % s = r := ⟨_, rfl⟩
    rw [hq, hrr] at hk hdm
    rw [hrr] at hml ⊢
    by_cases hi : i + 1 < k
    · rw [if_pos hi]
      have e1 : (i + 1) * s = i * s + s := by ring
      have e5 : i + 1 ≤ k - 1 := by omega
      have e6 : (i + 1) * s ≤ (k - 1) * s := Nat.mul_le_mul_right s e5
      have e7 := hcf.2.1
      simp only [Nat.min_def]
      split_ifs <;> omega
    · rw [if_neg hi]
      have hik : i = k - 1 := by omega
      rw [hik]
      by_cases hr : r = 0
      · rw [if_pos hr]
        rw [if_pos hr, Nat.add_zero] at hk
        rw [hr] at hdm
        have h0 : 0 < q := by
          rcases Nat.eq_zero_or_pos q with h0 | h0
          · rw [h0, Nat.mul_zero] at hdm; omega
          · exact h0
        rw [hk]
        have e2 : (q - 1) * s = q * s - 1 * s := Nat.sub_mul _ _ _
        have e3 : q * s = s * q := Nat.mul_comm _ _
        have e5 : s * 1 ≤ s * q := Nat.mul_le_mul_left s h0
        simp only [Nat.min_def]
        split_ifs <;> omega
      · rw [if_neg hr]
        rw [if_neg hr] at hk
        rw [hk, Nat.add_sub_cancel _ _]
        have e3 : q * s = s * q := Nat.mul_comm _ _
        simp only [Nat.min_def]
        split_ifs <;> omega
  · have hsum := congrArg List.length hflat
    rw [List.length_flatten] at hsum
    exact hsum

theorem create_chunks_sizes_witness :
    ((create_chunks ⟨required_columns,
        [⟨.str "JIDU6601", .str "SN1", .str "R2.0.19"⟩,
         ⟨.str "JIDU6601", .str "SN2", .str "R2.0.19"⟩,
         ⟨.str "JIDU6601", .str "SN3", .str "R2.0.19"⟩]⟩
        "JIDU6601" ALLOWED_VERSIONS 2).length =
      (3 : Nat) / 2 + (if (3 : Nat) % 2 = 0 then 0 else 1)) ∧
    ((create_chunks ⟨required_columns,
        [⟨.str "JIDU6601", .str "SN1", .str "R2.0.19"⟩,
         ⟨.str "JIDU6601", .str "SN2", .str "R2.0.19"⟩,
         ⟨.str "JIDU6601", .str "SN3", .str "R2.0.19"⟩]⟩
        "JIDU6601" ALLOWED_VERSIONS 2).map List.length).sum = 3 := by
  have h := create_chunks_sizes
    ⟨required_columns,
      [⟨.str "JIDU6601", .str "SN1", .str "R2.0.19"⟩,
       ⟨.str "JIDU6601", .str "SN2", .str "R2.0.19"⟩,
       ⟨.str "JIDU6601", .str "SN3", .str "R2.0.19"⟩]⟩
    "JIDU6601" ALLOWED_VERSIONS 2 (by decide) (by decide)
  refine ⟨?_, ?_⟩
  · have h1 := h.1
    rw [show (List.filter (rowPasses "JIDU6601" ALLOWED_VERSIONS)
      [⟨.str "JIDU6601", .str "SN1", .str "R2.0.19"⟩,
       ⟨.str "JIDU6601", .str "SN2", .str "R2.0.19"⟩,
       ⟨.str "JIDU6601", .str "SN3", .str "R2.0.19"⟩]).length = 3 from by decide] at h1
    exact h1
  · have h2 := h.2.2.2
    rw [show (List.filter (rowPasses "JIDU6601" ALLOWED_VERSIONS)
      [⟨.str "JIDU6601", .str "SN1", .str "R2.0.19"⟩,
       ⟨.str "JIDU6601", .str "SN2", .str "R2.0.19"⟩,
       ⟨.str "JIDU6601", .str "SN3", .str "R2.0.19"⟩]).length = 3 from by decide] at h2
    exact h2

/-- C6: `validate_data` returns `ok = false` iff at least one of
`Device Model`, `Serial Number`, `Version` is absent from the table's
columns, and in that case the message names exactly the required columns
that are missing (no more, no fewer); otherwise it returns `ok = true`. -/
theorem validate_data_ok (df : DataFrame) :
    ((validate_data df).1 = false ↔ ¬ (∀ c ∈ required_columns, c ∈ df.columns)) ∧
    ((validate_data df).1 = false →
      (validate_data df).2 = "Missing required columns: " ++
        String.intercalate ", "
          (required_columns.filter (fun c => !(df.columns.contains c)))) ∧
    ((validate_data df).1 = true ↔ ∀ c ∈ required_columns, c ∈ df.columns) := by
  have hiff : ((required_columns.filter (fun c => !(df.columns.contains c))) = []) ↔
      (∀ c ∈ required_columns, c ∈ df.columns) := by
    rw [List.filter_eq_nil_iff]
    constructor
    · intro hf c hc
      have hfc := hf c hc
      simpa [List.contains, List.elem_iff] using hfc
    · intro hall c hc
      simp [List.contains, List.elem_iff, hall c hc]
  simp only [validate_data]
  split_ifs with hcond
  · have hall : ∀ c ∈ required_columns, c ∈ df.columns :=
      hiff.mp (by simpa [List.isEmpty_iff] using hcond)
    simp [hall]
    exact hall
  · have hnall : ¬ ∀ c ∈ required_columns, c ∈ df.columns := by
      intro hall
      refine hcond ?_
      simp only [List.isEmpty_iff]
      exact hiff.mpr hall
    simp [hnall]

theorem validate_data_ok_witness :
    ((validate_data ⟨["Device Model", "Version"], []⟩).1 = false ∧
     (validate_data ⟨["Device Model", "Version"], []⟩).2 =
       "Missing required columns: " ++ String.intercalate ", "
         (required_columns.filter
           (fun c => !((["Device Model", "Version"] : List String).contains c)))) ∧
    (validate_data ⟨["Version", "Serial Number", "Device Model", "Extra"], []⟩).1
      = true := by
  refine ⟨⟨?_, ?_⟩, ?_⟩
  · exact (validate_data_ok _).1.mpr (by decide)
  · exact (validate_data_ok _).2.1 (by decide)
  · exact (validate_data_ok _).2.2.mpr (by decide)

/-- C9: `create_chunks` does not mutate its input table (modelled by the
state-passing variant `create_chunks_state`, whose returned table state is
the table passed in, every pandas operation used being a read), and when no
row passes the filter it returns an empty list rather than raising. -/
theorem create_chunks_pure_and_empty (df : DataFrame) (m : String)
    (a : List String) (s : Nat) :
    (create_chunks_state df m a s).2 = df ∧
    (df.rows.filter (rowPasses m a) = [] →
      (create_chunks_state df m a s).1 = []) := by
  refine ⟨rfl, fun h => ?_⟩
  simp [create_chunks_state, create_chunks, h]

theorem create_chunks_pure_and_empty_witness :
    (create_chunks_state
      ⟨required_columns, [⟨.str "JIDU6701", .str "SN1", .str "R9.9.9"⟩]⟩
      "JIDU6601" ALLOWED_VERSIONS 25000).2 =
      ⟨required_columns, [⟨.str "JIDU6701", .str "SN1", .str "R9.9.9"⟩]⟩ ∧
    (create_chunks_state
      ⟨required_columns, [⟨.str "JIDU6701", .str "SN1", .str "R9.9.9"⟩]⟩
      "JIDU6601" ALLOWED_VERSIONS 25000).1 = [] := by
  have h := create_chunks_pure_and_empty
    ⟨required_columns, [⟨.str "JIDU6701", .str "SN1", .str "R9.9.9"⟩]⟩
    "JIDU6601" ALLOWED_VERSIONS 25000
  exact ⟨h.1, h.2 (by decide)⟩

/-- C8: for every output mapping, each `(filename, xml_content)` pair across
all models becomes exactly one archive entry, named exactly by its filename
and whose content is exactly the document (entry multiplicity equals the
pair's multiplicity across the mapping, and entries appear in write order);
the empty mapping yields an archive with zero entries. -/
theorem create_zip_file_entries (d : List (String × List (String × String)))
    (e : String × String) :
    (create_zip_file d).count e = (d.map (fun mf => mf.2.count e)).sum ∧
    ((e ∈ create_zip_file d) ↔ ∃ mf ∈ d, e ∈ mf.2) ∧
    create_zip_file ([] : List (String × List (String × String))) = [] := by
  refine ⟨?_, ?_, rfl⟩
  · unfold create_zip_file
    induction d with
    | nil => rfl
    | cons x d ih => simp [ih]
  · unfold create_zip_file
    rw [List.mem_flatMap]

theorem create_zip_file_entries_witness :
    create_zip_file ([] : List (String × List (String × String))) = [] :=
  (create_zip_file_entries [] ("a", "b")).2.2

/-! Lemmas about the orchestrator `process_data_to_xml`. -/

lemma process_keys_aux (df : DataFrame) (l : List String) :
    (l.filterMap (fun device_model =>
      let chunks := create_chunks df device_model ALLOWED_VERSIONS CHUNK_SIZE
      if chunks.isEmpty then none
      else some (device_model,
        (List.enumFrom 1 chunks).map (fun p =>
          (chunkFilename device_model p.1,
           generate_xml_from_chunk p.2 device_model p.1))))).map Prod.fst =
    l.filter (fun m => !(create_chunks df m ALLOWED_VERSIONS CHUNK_SIZE).isEmpty) := by
  induction l with
  | nil => rfl
  | cons x l ih =>
    rw [List.filterMap_cons, List.filter_cons]
    by_cases hx : (create_chunks df x ALLOWED_VERSIONS CHUNK_SIZE).isEmpty
    · simp only [hx]
      simpa [hx] using ih
    · simp only [hx]
      simpa [hx] using ih

lemma process_keys (df : DataFrame) :
    (process_data_to_xml df).map Prod.fst =
      DEVICE_MODELS.filter
        (fun m => !(create_chunks df m ALLOWED_VERSIONS CHUNK_SIZE).isEmpty) :=
  process_keys_aux df DEVICE_MODELS

lemma process_mem (df : DataFrame) (m : String)
    (files : List (String × String)) :
    ((m, files) ∈ process_data_to_xml df) ↔
      (m ∈ DEVICE_MODELS ∧
       ¬ (create_chunks df m ALLOWED_VERSIONS CHUNK_SIZE).isEmpty = true ∧
       files = (List.enumFrom 1 (create_chunks df m ALLOWED_VERSIONS CHUNK_SIZE)).map
         (fun p => (chunkFilename m p.1, generate_xml_from_chunk p.2 m p.1))) := by
  unfold process_data_to_xml
  rw [List.mem_filterMap]
  constructor
  · rintro ⟨x, hx, hsome⟩
    by_cases hc : (create_chunks df x ALLOWED_VERSIONS CHUNK_SIZE).isEmpty
    · simp [hc] at hsome
    · simp only [hc] at hsome
      rw [if_neg (by simp [hc])] at hsome
      obtain ⟨rfl, rfl⟩ := Prod.mk.injEq .. ▸ Option.some.injEq .. ▸ hsome
      exact ⟨hx, by simp [hc], rfl⟩
  · rintro ⟨hm, hc, rfl⟩
    exact ⟨m, hm, by simp [hc]⟩

/-- C4: `process_data_to_xml` iterates the 11 device models in declaration
order (which is not alphabetical), chunking with the global allowed-version
list and chunk size `CHUNK_SIZE = 25000`; a model is a key of the result iff
its chunk list is non-empty (the result's key sequence is exactly the
declaration-ordered model list filtered to non-empty chunk lists, so models
with zero chunks are absent); and a key's entries are the
`(chunkFilename model n, generate_xml_from_chunk chunk model n)` pairs in
chunk order, numbered consecutively from 1. -/
theorem process_data_to_xml_structure (df : DataFrame) :
    DEVICE_MODELS.length = 11 ∧
    CHUNK_SIZE = 25000 ∧
    DEVICE_MODELS ≠
      ["JIDU6101", "JIDU6111", "JIDU6311", "JIDU6401", "JIDU6411", "JIDU6601",
       "JIDU6611", "JIDU6701", "JIDU6801", "JIDU6811", "JIDU6911"] ∧
    (process_data_to_xml df).map Prod.fst =
      DEVICE_MODELS.filter
        (fun m => !(create_chunks df m ALLOWED_VERSIONS CHUNK_SIZE).isEmpty) ∧
    (∀ m, (∃ files, (m, files) ∈ process_data_to_xml df) ↔
      (m ∈ DEVICE_MODELS ∧
       ¬ (create_chunks df m ALLOWED_VERSIONS CHUNK_SIZE).isEmpty = true)) ∧
    (∀ m files, (m, files) ∈ process_data_to_xml df →
      files.length = (create_chunks df m ALLOWED_VERSIONS CHUNK_SIZE).length ∧
      ∀ i, (h1 : i < files.length) →
        (h2 : i < (create_chunks df m ALLOWED_VERSIONS CHUNK_SIZE).length) →
        files[i] = (chunkFilename m (i + 1),
          generate_xml_from_chunk
            ((create_chunks df m ALLOWED_VERSIONS CHUNK_SIZE)[i]) m (i + 1))) := by
  refine ⟨by decide, rfl, by decide, process_keys df, ?_, ?_⟩
  · intro m
    constructor
    · rintro ⟨files, hmem⟩
      have h := (process_mem df m files).mp hmem
      exact ⟨h.1, h.2.1⟩
    · rintro ⟨hm, hc⟩
      exact ⟨_, (process_mem df m _).mpr ⟨hm, hc, rfl⟩⟩
  · intro m files hmem
    obtain ⟨-, -, rfl⟩ := (process_mem df m files).mp hmem
    refine ⟨by simp, ?_⟩
    intro i h1 h2
    simp only [List.getElem_map, List.getElem_enumFrom]
    rw [Nat.add_comm 1 i]

theorem process_data_to_xml_structure_witness :
    DEVICE_MODELS.length = 11 ∧
    (process_data_to_xml
      ⟨required_columns, [⟨.str "JIDU6601", .str "SN1", .str "R2.0.19"⟩]⟩).map
        Prod.fst =
      DEVICE_MODELS.filter (fun m => !(create_chunks
        ⟨required_columns, [⟨.str "JIDU6601", .str "SN1", .str "R2.0.19"⟩]⟩
        m ALLOWED_VERSIONS CHUNK_SIZE).isEmpty) :=
  ⟨(process_data_to_xml_structure
      ⟨required_columns, [⟨.str "JIDU6601", .str "SN1", .str "R2.0.19"⟩]⟩).1,
   (process_data_to_xml_structure
      ⟨required_columns, [⟨.str "JIDU6601", .str "SN1", .str "R2.0.19"⟩]⟩).2.2.2.1⟩

/-! Decimal rendering: `natRepr` is injective, so chunk filenames are
pairwise distinct. -/

lemma digitVal_digitChar : ∀ d, d < 10 → digitVal (Nat.digitChar d) = d := by
  decide

lemma evalRev_natReprAux : ∀ n, evalRev (natReprAux n) = n := by
  intro n
  induction n using Nat.strong_induction_on with
  | _ n ih =>
    by_cases h : n < 10
    · rw [natReprAux, dif_pos h]
      simp only [evalRev]
      rw [digitVal_digitChar n h]
      omega
    · rw [natReprAux, dif_neg h]
      simp only [evalRev]
      rw [ih (n / 10) (Nat.div_lt_self (by omega) (by omega)),
        digitVal_digitChar (n % 10) (Nat.mod_lt _ (by omega))]
      omega

lemma natRepr_inj {a b : Nat} (h : natRepr a = natRepr b) : a = b := by
  unfold natRepr at h
  have h2 : (natReprAux a).reverse = (natReprAux b).reverse := by
    simpa using congrArg String.data h
  have h3 : natReprAux a = natReprAux b := List.reverse_injective h2
  have ha := evalRev_natReprAux a
  have hb := evalRev_natReprAux b
  rw [← ha, ← hb, h3]

lemma chunkFilename_inj {m1 m2 : String} {n1 n2 : Nat}
    (hlen : m1.length = m2.length)
    (h : chunkFilename m1 n1 = chunkFilename m2 n2) : m1 = m2 ∧ n1 = n2 := by
  unfold chunkFilename at h
  have hd : m1.data ++ ("_Chunk".data ++ ((natRepr n1).data ++ ".xml".data)) =
      m2.data ++ ("_Chunk".data ++ ((natRepr n2).data ++ ".xml".data)) := by
    simpa [String.data_append, List.append_assoc] using congrArg String.data h
  obtain ⟨hm, hrest⟩ := List.append_inj hd hlen
  obtain ⟨-, hrest2⟩ := List.append_inj hrest rfl
  have hlen2 : (natRepr n1).data.length = (natRepr n2).data.length := by
    have hc := congrArg List.length hrest2
    simp only [List.length_append] at hc
    omega
  obtain ⟨hrep, -⟩ := List.append_inj hrest2 hlen2
  exact ⟨String.ext hm, natRepr_inj (String.ext hrep)⟩

lemma model_names_nodup (df : DataFrame) (m : String) :
    (((List.enumFrom 1 (create_chunks df m ALLOWED_VERSIONS CHUNK_SIZE)).map
      (fun p => (chunkFilename m p.1,
        generate_xml_from_chunk p.2 m p.1))).map Prod.fst).Nodup := by
  rw [List.map_map]
  have heq : (Prod.fst ∘ fun p : Nat × List Row =>
      (chunkFilename m p.1, generate_xml_from_chunk p.2 m p.1)) =
      (chunkFilename m ∘ Prod.fst) := rfl
  rw [heq, ← List.map_map, List.enumFrom_map_fst]
  exact List.Nodup.map (fun a b hab => (chunkFilename_inj rfl hab).2)
    (List.nodup_range' _ _)

lemma mem_process_names (df : DataFrame) (l : List String) (x : String)
    (hx : x ∈ (l.filterMap (fun device_model =>
      let chunks := create_chunks df device_model ALLOWED_VERSIONS CHUNK_SIZE
      if chunks.isEmpty then none
      else some (device_model,
        (List.enumFrom 1 chunks).map (fun p =>
          (chunkFilename device_model p.1,
           generate_xml_from_chunk p.2 device_model p.1))))).flatMap
        (fun p => p.2.map Prod.fst)) :
    ∃ m ∈ l, ∃ j, x = chunkFilename m j := by
  rw [List.mem_flatMap] at hx
  obtain ⟨p, hp, hxp⟩ := hx
  rw [List.mem_filterMap] at hp
  obtain ⟨m, hm, hsome⟩ := hp
  by_cases hc : (create_chunks df m ALLOWED_VERSIONS CHUNK_SIZE).isEmpty
  · simp [hc] at hsome
  · simp only [hc] at hsome
    rw [if_neg (by simp [hc])] at hsome
    obtain rfl := Option.some.injEq .. ▸ hsome
    rw [List.map_map, List.mem_map] at hxp
    obtain ⟨q, -, hq⟩ := hxp
    exact ⟨m, hm, q.1, hq.symm⟩

lemma process_names_nodup_aux (df : DataFrame) :
    ∀ l : List String, l.Nodup → (∀ m ∈ l, m.length = 8) →
      ((l.filterMap (fun device_model =>
        let chunks := create_chunks df device_model ALLOWED_VERSIONS CHUNK_SIZE
        if chunks.isEmpty then none
        else some (device_model,
          (List.enumFrom 1 chunks).map (fun p =>
            (chunkFilename device_model p.1,
             generate_xml_from_chunk p.2 device_model p.1))))).flatMap
          (fun p => p.2.map Prod.fst)).Nodup := by
  intro l
  induction l with
  | nil => intro _ _; simp
  | cons m l ih =>
    intro hnd hlen
    have hnd' := (List.nodup_cons.mp hnd).2
    have hm' := (List.nodup_cons.mp hnd).1
    have hlen' : ∀ m' ∈ l, m'.length = 8 := fun m' hm => hlen m' (by simp [hm])
    rw [List.filterMap_cons]
    by_cases hc : (create_chunks df m ALLOWED_VERSIONS CHUNK_SIZE).isEmpty
    · simp only [hc]
      simpa using ih hnd' hlen'
    · simp only [hc]
      rw [if_neg (by simp [hc])]
      rw [List.flatMap_cons]
      rw [List.nodup_append]
      refine ⟨model_names_nodup df m, ih hnd' hlen', ?_⟩
      intro x hx1 hx2
      rw [List.map_map, List.mem_map] at hx1
      obtain ⟨q, -, hq⟩ := hx1
      obtain ⟨m', hm'', j, hj⟩ := mem_process_names df l x hx2
      have heq : chunkFilename m q.1 = chunkFilename m' j := by
        simp only [Function.comp_apply] at hq
        rw [hq]
        exact hj
      have hmm : m = m' :=
        (chunkFilename_inj (by rw [hlen m (by simp), hlen' m' hm'']) heq).1
      exact hm' (hmm ▸ hm'')

/-- C10: across all entries of the mapping returned by
`process_data_to_xml` the filenames are pairwise distinct (the 11 model
identifiers are distinct strings of equal length 8 and chunk numbers are
distinct within each model), so no two archive entries written by
`create_zip_file` share a name. -/
theorem filenames_distinct (df : DataFrame) :
    ((process_data_to_xml df).flatMap (fun p => p.2.map Prod.fst)).Nodup ∧
    ((create_zip_file (process_data_to_xml df)).map Prod.fst).Nodup ∧
    DEVICE_MODELS.Nodup ∧ (∀ m ∈ DEVICE_MODELS, m.length = 8) := by
  have h1 : ((process_data_to_xml df).flatMap (fun p => p.2.map Prod.fst)).Nodup := by
    unfold process_data_to_xml
    exact process_names_nodup_aux df DEVICE_MODELS (by decide) (by decide)
  refine ⟨h1, ?_, by decide, by decide⟩
  have h2 : (create_zip_file (process_data_to_xml df)).map Prod.fst =
      (process_data_to_xml df).flatMap (fun p => p.2.map Prod.fst) := by
    unfold create_zip_file
    rw [List.map_flatMap]
  rw [h2]
  exact h1

theorem filenames_distinct_witness :
    ((process_data_to_xml
      ⟨required_columns, [⟨.str "JIDU6601", .str "SN1", .str "R2.0.19"⟩]⟩).flatMap
        (fun p => p.2.map Prod.fst)).Nodup ∧
    DEVICE_MODELS.Nodup :=
  ⟨(filenames_distinct
      ⟨required_columns, [⟨.str "JIDU6601", .str "SN1", .str "R2.0.19"⟩]⟩).1,
   (filenames_distinct
      ⟨required_columns, [⟨.str "JIDU6601", .str "SN1", .str "R2.0.19"⟩]⟩).2.2.1⟩

/-! Lemmas about line splitting and joining. -/

lemma splitNl_no_newline (l : List Char) (h : '\n' ∉ l) : splitNl l = [l] := by
  induction l with
  | nil => rfl
  | cons c rest ih =>
    have hc : ¬ (c = '\n') := fun hh => h (hh ▸ List.mem_cons_self c rest)
    have hr : '\n' ∉ rest := fun hh => h (List.mem_cons_of_mem _ hh)
    simp only [splitNl, if_neg hc, ih hr]

lemma splitNl_append_cons (l r : List Char) (h : '\n' ∉ l) :
    splitNl (l ++ '\n' :: r) = l :: splitNl r := by
  induction l with
  | nil => simp [splitNl]
  | cons c l ih =>
    have hc : ¬ (c = '\n') := fun hh => h (hh ▸ List.mem_cons_self c l)
    have hl : '\n' ∉ l := fun hh => h (List.mem_cons_of_mem _ hh)
    simp only [List.cons_append, splitNl, if_neg hc]
    simp only [List.append_eq]
    rw [ih hl]

lemma splitNl_joinNl (ls : List (List Char)) (hne : ls ≠ [])
    (h : ∀ l ∈ ls, '\n' ∉ l) : splitNl (joinNl ls) = ls := by
  induction ls with
  | nil => exact absurd rfl hne
  | cons l ls ih =>
    cases ls with
    | nil =>
      simp only [joinNl]
      exact splitNl_no_newline l (h l (List.mem_cons_self _ _))
    | cons l2 ls2 =>
      simp only [joinNl]
      rw [splitNl_append_cons _ _ (h l (List.mem_cons_self _ _)),
        ih (by simp) (fun x hx => h x (List.mem_cons_of_mem _ hx))]

/-! Lemmas about the XML escaping. -/

lemma quote_not_mem_esc (s : String) : '"' ∉ esc s := by
  unfold esc
  rw [List.mem_flatMap]
  rintro ⟨c, -, hc⟩
  revert hc
  unfold escChar
  split_ifs with h1 h2 h3 h4 <;> intro hc
  · exact absurd hc (by decide)
  · exact absurd hc (by decide)
  · exact absurd hc (by decide)
  · exact absurd hc (by decide)
  · simp only [List.mem_singleton] at hc
    exact h3 hc.symm

lemma newline_not_mem_esc (s : String) (h : '\n' ∉ s.data) : '\n' ∉ esc s := by
  unfold esc
  rw [List.mem_flatMap]
  rintro ⟨c, hcs, hc⟩
  revert hc
  unfold escChar
  split_ifs with h1 h2 h3 h4 <;> intro hc
  · exact absurd hc (by decide)
  · exact absurd hc (by decide)
  · exact absurd hc (by decide)
  · exact absurd hc (by decide)
  · simp only [List.mem_singleton] at hc
    rw [← hc] at hcs
    exact h hcs

lemma lt_not_mem_esc (s : String) : '<' ∉ esc s := by
  unfold esc
  rw [List.mem_flatMap]
  rintro ⟨c, -, hc⟩
  revert hc
  unfold escChar
  split_ifs with h1 h2 h3 h4 <;> intro hc
  · exact absurd hc (by decide)
  · exact absurd hc (by decide)
  · exact absurd hc (by decide)
  · exact absurd hc (by decide)
  · simp only [List.mem_singleton] at hc
    exact h2 hc.symm

lemma unesc_esc (l : List Char) : unescChars (l.flatMap escChar) = l := by
  induction l with
  | nil => simp [unescChars]
  | cons c l ih =>
    rw [List.flatMap_cons]
    by_cases h1 : c = '&'
    · subst h1
      rw [show escChar '&' = ['&', 'a', 'm', 'p', ';'] from rfl]
      simp only [List.cons_append, List.nil_append]
      rw [unescChars, if_pos rfl,
        if_pos (show (['a', 'm', 'p', ';'].isPrefixOf
          ('a' :: 'm' :: 'p' :: ';' :: l.flatMap escChar)) = true by
            simp [List.isPrefixOf])]
      simp only [List.drop_succ_cons, List.drop_zero]
      rw [ih]
    · by_cases h2 : c = '<'
      · subst h2
        rw [show escChar '<' = ['&', 'l', 't', ';'] from rfl]
        simp only [List.cons_append, List.nil_append]
        rw [unescChars, if_pos rfl,
          if_neg (show ¬ (['a', 'm', 'p', ';'].isPrefixOf
            ('l' :: 't' :: ';' :: l.flatMap escChar)) = true by
              simp [List.isPrefixOf]),
          if_pos (show (['l', 't', ';'].isPrefixOf
            ('l' :: 't' :: ';' :: l.flatMap escChar)) = true by
              simp [List.isPrefixOf])]
        simp only [List.drop_succ_cons, List.drop_zero]
        rw [ih]
      · by_cases h3 : c = '"'
        · subst h3
          rw [show escChar '"' = ['&', 'q', 'u', 'o', 't', ';'] from rfl]
          simp only [List.cons_append, List.nil_append]
          rw [unescChars, if_pos rfl,
            if_neg (show ¬ (['a', 'm', 'p', ';'].isPrefixOf
              ('q' :: 'u' :: 'o' :: 't' :: ';' :: l.flatMap escChar)) = true by
                simp [List.isPrefixOf]),
            if_neg (show ¬ (['l', 't', ';'].isPrefixOf
              ('q' :: 'u' :: 'o' :: 't' :: ';' :: l.flatMap escChar)) = true by
                simp [List.isPrefixOf]),
            if_neg (show ¬ (['g', 't', ';'].isPrefixOf
              ('q' :: 'u' :: 'o' :: 't' :: ';' :: l.flatMap escChar)) = true by
                simp [List.isPrefixOf]),
            if_pos (show (['q', 'u', 'o', 't', ';'].isPrefixOf
              ('q' :: 'u' :: 'o' :: 't' :: ';' :: l.flatMap escChar)) = true by
                simp [List.isPrefixOf])]
          simp only [List.drop_succ_cons, List.drop_zero]
          rw [ih]
        · by_cases h4 : c = '>'
          · subst h4
            rw [show escChar '>' = ['&', 'g', 't', ';'] from rfl]
            simp only [List.cons_append, List.nil_append]
            rw [unescChars, if_pos rfl,
              if_neg (show ¬ (['a', 'm', 'p', ';'].isPrefixOf
                ('g' :: 't' :: ';' :: l.flatMap escChar)) = true by
                  simp [List.isPrefixOf]),
              if_neg (show ¬ (['l', 't', ';'].isPrefixOf
                ('g' :: 't' :: ';' :: l.flatMap escChar)) = true by
                  simp [List.isPrefixOf]),
              if_pos (show (['g', 't', ';'].isPrefixOf
                ('g' :: 't' :: ';' :: l.flatMap escChar)) = true by
                  simp [List.isPrefixOf])]
            simp only [List.drop_succ_cons, List.drop_zero]
            rw [ih]
          · rw [show escChar c = [c] from by
              unfold escChar
              rw [if_neg h1, if_neg h2, if_neg h3, if_neg h4]]
            rw [List.singleton_append, unescChars, if_neg h1, ih]

lemma unesc_esc_str (s : String) : unescChars (esc s) = s.data :=
  unesc_esc s.data

lemma string_mk_data (s : String) : String.mk s.data = s := rfl

/-! Lemmas about the reference reader. -/

lemma isPrefixOf_append_self (p r : List Char) : (p.isPrefixOf (p ++ r)) = true := by
  induction p with
  | nil => simp [List.isPrefixOf]
  | cons a p ih => simp [List.isPrefixOf, ih]

lemma dropPre_append (p r : List Char) : dropPre p (p ++ r) = some r := by
  unfold dropPre
  rw [if_pos (isPrefixOf_append_self p r), List.drop_left]

lemma splitAtQuote_append (a b : List Char) (h : '"' ∉ a) :
    splitAtQuote (a ++ '"' :: b) = some (a, b) := by
  induction a with
  | nil => simp [splitAtQuote]
  | cons c a ih =>
    have hc : ¬ (c = '"') := fun hh => h (hh ▸ List.mem_cons_self c a)
    have ha : '"' ∉ a := fun hh => h (List.mem_cons_of_mem _ hh)
    simp only [List.cons_append, splitAtQuote, if_neg hc]
    simp only [List.append_eq]
    rw [ih ha]
    rfl

lemma parseSerialLine_serialLine (m mf sn : String) :
    parseSerialLine (serialLine m mf sn) = some (m, mf, sn) := by
  have e0 : serialLine m mf sn =
      "  <serial Model=\"".data ++ (esc m ++ ('"' :: (" Manufacturer=\"".data ++
        (esc mf ++ ('"' :: (">".data ++ (esc sn ++ "</serial>".data))))))) := by
    unfold serialLine
    rw [show "\" Manufacturer=\"".data = '"' :: " Manufacturer=\"".data from rfl,
      show "\">".data = '"' :: ">".data from rfl]
    simp [List.append_assoc]
  rw [e0]
  have hlen : (esc sn ++ "</serial>".data).length - 9 = (esc sn).length := by
    rw [List.length_append]
    rfl
  simp only [parseSerialLine, dropPre_append,
    splitAtQuote_append _ _ (quote_not_mem_esc m),
    splitAtQuote_append _ _ (quote_not_mem_esc mf)]
  rw [if_pos (show List.drop ((esc sn ++ "</serial>".data).length - 9)
      (esc sn ++ "</serial>".data) = "</serial>".data by
    rw [hlen, List.drop_left])]
  rw [hlen, List.take_left]
  rw [unesc_esc_str, unesc_esc_str, unesc_esc_str,
    string_mk_data, string_mk_data, string_mk_data]

lemma parseSerialLines_map (m mf : String) (ss : List String) :
    parseSerialLines ((ss.map (serialLine m mf)) ++ ["</serials>".data]) =
      some (ss.map (fun sn => (m, mf, sn))) := by
  induction ss with
  | nil => simp [parseSerialLines]
  | cons s ss ih =>
    rw [List.map_cons, List.cons_append]
    cases hrest : (ss.map (serialLine m mf)) ++ ["</serials>".data] with
    | nil => simp at hrest
    | cons l2 rest =>
      rw [parseSerialLines, parseSerialLine_serialLine, ← hrest, ih]
      rfl

/-! Lemmas about trimming and the line filter of the renderer. -/

lemma dropWhile_cons_false (p : Char → Bool) (a : Char) (l : List Char)
    (h : p a = false) : (a :: l).dropWhile p = a :: l := by
  simp [List.dropWhile_cons, h]

lemma trimRight_gt (X : List Char) :
    (((X ++ "</serial>".data).reverse).dropWhile pyWhitespace).reverse =
      X ++ "</serial>".data := by
  rw [List.reverse_append]
  have h1 : "</serial>".data.reverse = '>' :: "laires/<".data := rfl
  rw [h1, List.cons_append,
    dropWhile_cons_false pyWhitespace '>' _ (by rfl),
    ← List.cons_append, ← h1, ← List.reverse_append, List.reverse_reverse]

lemma trimChars_serialLine (m mf sn : String) :
    trimChars (serialLine m mf sn) =
      "<serial Model=\"".data ++ (esc m ++ ("\" Manufacturer=\"".data ++
        (esc mf ++ ("\">".data ++ (esc sn ++ "</serial>".data))))) := by
  have e0 : serialLine m mf sn =
      ' ' :: ' ' :: ("<serial Model=\"".data ++ (esc m ++
        ("\" Manufacturer=\"".data ++ (esc mf ++ ("\">".data ++
          (esc sn ++ "</serial>".data)))))) := by
    unfold serialLine
    rw [show "  <serial Model=\"".data =
      ' ' :: ' ' :: "<serial Model=\"".data from rfl]
    simp [List.append_assoc]
  have e1 : "<serial Model=\"".data ++ (esc m ++ ("\" Manufacturer=\"".data ++
      (esc mf ++ ("\">".data ++ (esc sn ++ "</serial>".data))))) =
      '<' :: ("serial Model=\"".data ++ (esc m ++ ("\" Manufacturer=\"".data ++
        (esc mf ++ ("\">".data ++ (esc sn ++ "</serial>".data)))))) := rfl
  have e3 : '<' :: ("serial Model=\"".data ++ (esc m ++
      ("\" Manufacturer=\"".data ++ (esc mf ++ ("\">".data ++
        (esc sn ++ "</serial>".data)))))) =
      ('<' :: ("serial Model=\"".data ++ (esc m ++ ("\" Manufacturer=\"".data ++
        (esc mf ++ ("\">".data ++ esc sn)))))) ++ "</serial>".data := by
    simp [List.append_assoc]
  rw [e0]
  unfold trimChars
  have hws : pyWhitespace ' ' = true := rfl
  rw [List.dropWhile_cons, if_pos hws, List.dropWhile_cons, if_pos hws, e1,
    dropWhile_cons_false pyWhitespace '<' _ (by rfl), e3, trimRight_gt,
    ← e3, ← e1]

lemma keep_serialLine (m mf sn : String) :
    ((!(trimChars (serialLine m mf sn)).isEmpty) &&
     !(("<?xml".data).isPrefixOf (trimChars (serialLine m mf sn)))) = true := by
  rw [trimChars_serialLine]
  rw [show "<serial Model=\"".data ++ (esc m ++ ("\" Manufacturer=\"".data ++
      (esc mf ++ ("\">".data ++ (esc sn ++ "</serial>".data))))) =
    '<' :: 's' :: ("erial Model=\"".data ++ (esc m ++
      ("\" Manufacturer=\"".data ++ (esc mf ++ ("\">".data ++
        (esc sn ++ "</serial>".data)))))) from rfl]
  rw [show ("<?xml".data) = '<' :: '?' :: "xml".data from rfl]
  simp only [List.isEmpty_cons, List.isPrefixOf]
  rw [show ('<' == '<') = true from rfl, show ('?' == 's') = false from rfl]
  simp

lemma serialLine_no_newline (m mf sn : String) (hm : '\n' ∉ m.data)
    (hmf : '\n' ∉ mf.data) (hsn : '\n' ∉ sn.data) :
    '\n' ∉ serialLine m mf sn := by
  unfold serialLine
  intro hmem
  simp only [List.mem_append] at hmem
  rcases hmem with ((((((h | h) | h) | h) | h) | h) | h)
  · exact absurd h (by decide)
  · exact newline_not_mem_esc m hm h
  · exact absurd h (by decide)
  · exact newline_not_mem_esc mf hmf h
  · exact absurd h (by decide)
  · exact newline_not_mem_esc sn hsn h
  · exact absurd h (by decide)

lemma lookup_values (l : List (String × String)) (k v : String)
    (h : l.lookup k = some v) : v ∈ l.map Prod.snd := by
  induction l with
  | nil => simp [List.lookup] at h
  | cons p l ih =>
    cases p with
    | mk k' v' =>
      rw [List.lookup] at h
      cases hkk : (k == k') with
      | true => rw [hkk] at h; simp at h; simp [h]
      | false => rw [hkk] at h; simp at h; exact List.mem_cons_of_mem _ (ih h)

lemma mfr_no_newline (m : String) :
    '\n' ∉ ((MANUFACTURER_MAP.lookup m).getD "Unknown").data := by
  cases hl : MANUFACTURER_MAP.lookup m with
  | none => rw [Option.getD_none]; decide
  | some v =>
    rw [Option.getD_some]
    have hv := lookup_values MANUFACTURER_MAP m v hl
    have hall : ∀ x ∈ MANUFACTURER_MAP.map Prod.snd, '\n' ∉ x.data := by decide
    exact hall v hv

/-! The line structure of a rendered document. -/

lemma prettyLines_eq (chunk : List Row) (m : String) :
    prettyLines chunk m ((MANUFACTURER_MAP.lookup m).getD "Unknown") =
      (MINIDOM_DECL :: bodyLines chunk m) ++ [[]] := rfl

lemma bodyLines_ne_nil (chunk : List Row) (m : String) :
    bodyLines chunk m ≠ [] := by
  unfold bodyLines
  by_cases hc : (chunkSerials chunk).isEmpty
  · simp [hc]
  · simp [hc]

lemma bodyLines_no_newline (chunk : List Row) (m : String)
    (hm : '\n' ∉ m.data)
    (hs : ∀ s ∈ chunkSerials chunk, '\n' ∉ eolNorm s.data) :
    ∀ l ∈ bodyLines chunk m, '\n' ∉ l := by
  intro l hl
  simp only [bodyLines] at hl
  by_cases hc : (chunkSerials chunk).isEmpty
  · rw [if_pos hc] at hl
    simp only [List.mem_singleton] at hl
    subst hl
    decide
  · rw [if_neg hc] at hl
    rcases List.mem_cons.mp hl with rfl | hl2
    · decide
    rcases List.mem_append.mp hl2 with hl3 | hl3
    · rw [List.mem_map] at hl3
      obtain ⟨sn, hsn, rfl⟩ := hl3
      exact serialLine_no_newline m _ (String.mk (eolNorm sn.data)) hm
        (mfr_no_newline m) (hs sn hsn)
    · simp only [List.mem_singleton] at hl3
      subst hl3
      decide

lemma bodyLines_keep (chunk : List Row) (m : String) :
    ∀ l ∈ bodyLines chunk m,
      ((!(trimChars l).isEmpty) &&
       !(("<?xml".data).isPrefixOf (trimChars l))) = true := by
  intro l hl
  simp only [bodyLines] at hl
  by_cases hc : (chunkSerials chunk).isEmpty
  · rw [if_pos hc] at hl
    simp only [List.mem_singleton] at hl
    subst hl
    decide
  · rw [if_neg hc] at hl
    rcases List.mem_cons.mp hl with rfl | hl2
    · decide
    rcases List.mem_append.mp hl2 with hl3 | hl3
    · rw [List.mem_map] at hl3
      obtain ⟨sn, hsn, rfl⟩ := hl3
      exact keep_serialLine m _ (String.mk (eolNorm sn.data))
    · simp only [List.mem_singleton] at hl3
      subst hl3
      decide

lemma generate_xml_data (chunk : List Row) (m : String) (k : Nat)
    (hm : '\n' ∉ m.data)
    (hs : ∀ s ∈ chunkSerials chunk, '\n' ∉ eolNorm s.data) :
    (generate_xml_from_chunk chunk m k).data =
      XML_DECL.data ++ '\n' :: joinNl (bodyLines chunk m) := by
  simp only [generate_xml_from_chunk]
  rw [prettyLines_eq]
  rw [splitNl_joinNl _ (by simp) ?hnl]
  case hnl =>
    intro l hl
    rcases List.mem_append.mp hl with hl2 | hl2
    · rcases List.mem_cons.mp hl2 with rfl | hl3
      · decide
      · exact bodyLines_no_newline chunk m hm hs l hl3
    · simp only [List.mem_singleton] at hl2
      subst hl2
      decide
  rw [List.filter_append, List.filter_cons, if_neg (by decide),
    List.filter_eq_self.mpr (bodyLines_keep chunk m),
    List.filter_cons, if_neg (by decide), List.filter_nil, List.append_nil]

lemma generate_xml_splitNl (chunk : List Row) (m : String) (k : Nat)
    (hm : '\n' ∉ m.data)
    (hs : ∀ s ∈ chunkSerials chunk, '\n' ∉ eolNorm s.data) :
    splitNl (generate_xml_from_chunk chunk m k).data =
      XML_DECL.data :: bodyLines chunk m := by
  rw [generate_xml_data chunk m k hm hs,
    splitNl_append_cons _ _ (by decide),
    splitNl_joinNl _ (bodyLines_ne_nil chunk m)
      (bodyLines_no_newline chunk m hm hs)]

/-! End-of-line normalization facts. -/

lemma eolNormAux_of_no_cr (l : List Char) (h : '\r' ∉ l) :
    eolNormAux false l = l := by
  induction l with
  | nil => rfl
  | cons c rest ih =>
    have hc : ¬ (c = '\r') := fun hh => h (hh ▸ List.mem_cons_self c rest)
    have hr : '\r' ∉ rest := fun hh => h (List.mem_cons_of_mem _ hh)
    simp only [eolNormAux, if_neg hc]
    by_cases hn : c = '\n'
    · rw [if_pos hn, if_neg (by decide), ih hr, hn]
    · rw [if_neg hn, ih hr]

lemma eolNorm_of_no_cr (l : List Char) (h : '\r' ∉ l) : eolNorm l = l :=
  eolNormAux_of_no_cr l h

lemma bodyLines_of_no_cr (chunk : List Row) (m : String)
    (hs : ∀ s ∈ chunkSerials chunk, '\r' ∉ s.data) :
    bodyLines chunk m =
      (if (chunkSerials chunk).isEmpty then ["<serials/>".data]
       else "<serials>".data ::
        ((chunkSerials chunk).map
          (serialLine m ((MANUFACTURER_MAP.lookup m).getD "Unknown")) ++
          ["</serials>".data])) := by
  simp only [bodyLines]
  by_cases hc : (chunkSerials chunk).isEmpty
  · rw [if_pos hc, if_pos hc]
  · rw [if_neg hc, if_neg hc]
    have hmap : (chunkSerials chunk).map (fun sn =>
        serialLine m ((MANUFACTURER_MAP.lookup m).getD "Unknown")
          (String.mk (eolNorm sn.data))) =
        (chunkSerials chunk).map
          (serialLine m ((MANUFACTURER_MAP.lookup m).getD "Unknown")) :=
      List.map_congr_left (fun sn hsn => by
        rw [eolNorm_of_no_cr _ (hs sn hsn), string_mk_data])
    rw [hmap]

/-- C5 (amended): for a device model without newline and emitted serial
numbers containing neither newline nor carriage return, when
`minidom.parseString` accepts the serialized tree (all characters XML-valid,
otherwise the call raises `ExpatError`, modelled by the `none` branch of
`generate_xml_from_chunk_checked`): the rendered string is exactly the
declaration line `<?xml version="1.0" encoding="UTF-8"?>` followed by the
newline-joined body lines; no body line is blank, no body line's trimmed
form starts with `<?xml` (so the document has exactly one declaration line,
at the top); and the body is the pretty-printed tree one element per line:
the root tags at indent 0 and one two-space-indented `serial` line per
emitted serial.  (The original claim fails already for a carriage return in
a serial: expat normalizes it to a newline and the element spans two lines;
see the counterexample.) -/
theorem render_lines (chunk : List Row) (m : String) (k : Nat)
    (hm : '\n' ∉ m.data)
    (hs : ∀ s ∈ chunkSerials chunk, '\n' ∉ s.data ∧ '\r' ∉ s.data)
    (hv : expatAccepts chunk m = true) :
    generate_xml_from_chunk_checked chunk m k =
      some (generate_xml_from_chunk chunk m k) ∧
    (generate_xml_from_chunk chunk m k).data =
      XML_DECL.data ++ '\n' :: joinNl (bodyLines chunk m) ∧
    splitNl (generate_xml_from_chunk chunk m k).data =
      XML_DECL.data :: bodyLines chunk m ∧
    (∀ l ∈ bodyLines chunk m, ¬ (trimChars l).isEmpty = true) ∧
    (∀ l ∈ bodyLines chunk m,
      ¬ (("<?xml".data).isPrefixOf (trimChars l)) = true) ∧
    (bodyLines chunk m).length =
      (if (chunkSerials chunk).isEmpty then 1
       else (chunkSerials chunk).length + 2) ∧
    (∀ l ∈ bodyLines chunk m,
      l = "<serials>".data ∨ l = "</serials>".data ∨ l = "<serials/>".data ∨
      ∃ sn ∈ chunkSerials chunk,
        l = serialLine m ((MANUFACTURER_MAP.lookup m).getD "Unknown") sn) := by
  have hs' : ∀ s ∈ chunkSerials chunk, '\n' ∉ eolNorm s.data := fun s h => by
    rw [eolNorm_of_no_cr _ (hs s h).2]
    exact (hs s h).1
  have hcr : ∀ s ∈ chunkSerials chunk, '\r' ∉ s.data := fun s h => (hs s h).2
  refine ⟨by rw [generate_xml_from_chunk_checked, if_pos hv],
    generate_xml_data chunk m k hm hs',
    generate_xml_splitNl chunk m k hm hs', ?_, ?_, ?_, ?_⟩
  · intro l hl
    have h2 := (Bool.and_eq_true _ _).mp (bodyLines_keep chunk m l hl)
    simp only [Bool.not_eq_true'] at h2
    simp [h2.1]
  · intro l hl
    have h2 := (Bool.and_eq_true _ _).mp (bodyLines_keep chunk m l hl)
    simp only [Bool.not_eq_true'] at h2
    simp [h2.2]
  · simp only [bodyLines]
    by_cases hc : (chunkSerials chunk).isEmpty
    · simp [hc]
    · simp [hc]
  · intro l hl
    rw [bodyLines_of_no_cr chunk m hcr] at hl
    by_cases hc : (chunkSerials chunk).isEmpty
    · rw [if_pos hc] at hl
      simp only [List.mem_singleton] at hl
      exact Or.inr (Or.inr (Or.inl hl))
    · rw [if_neg hc] at hl
      rcases List.mem_cons.mp hl with rfl | hl2
      · exact Or.inl rfl
      rcases List.mem_append.mp hl2 with hl3 | hl3
      · rw [List.mem_map] at hl3
        obtain ⟨sn, hsn, rfl⟩ := hl3
        exact Or.inr (Or.inr (Or.inr ⟨sn, hsn, rfl⟩))
      · simp only [List.mem_singleton] at hl3
        exact Or.inr (Or.inl hl3)

theorem render_lines_witness :
    expatAccepts
      [⟨PdValue.str "JIDU6601", PdValue.str " SN1 ", PdValue.str "R2.0.19"⟩]
      "JIDU6601" = true ∧
    splitNl (generate_xml_from_chunk
      [⟨PdValue.str "JIDU6601", PdValue.str " SN1 ", PdValue.str "R2.0.19"⟩]
      "JIDU6601" 1).data =
      XML_DECL.data :: bodyLines
        [⟨PdValue.str "JIDU6601", PdValue.str " SN1 ", PdValue.str "R2.0.19"⟩]
        "JIDU6601" :=
  ⟨by decide,
   (render_lines _ "JIDU6601" 1 (by decide) (by decide) (by decide)).2.2.1⟩

/-- C5 counterexample: the serial `"A\rB"` contains no newline, yet the
rendered document has five lines: expat's end-of-line normalization turns
the carriage return into a newline, so the single `serial` element spans
lines 3 and 4, line 4 being the bare fragment `B</serial>` — not one
element per line.  And the serial `"A\x0bB"` (an interior vertical tab,
which `strip()` keeps) makes the real call raise `ExpatError` instead of
returning a declaration-prefixed pretty-printed document at all. -/
theorem render_lines_counterexample :
    (splitNl (generate_xml_from_chunk
      [⟨PdValue.str "JIDU6601", PdValue.str "A\rB", PdValue.str "R2.0.19"⟩]
      "JIDU6601" 1).data).length = 5 ∧
    (splitNl (generate_xml_from_chunk
      [⟨PdValue.str "JIDU6601", PdValue.str "A\rB", PdValue.str "R2.0.19"⟩]
      "JIDU6601" 1).data).get? 3 = some ("B</serial>".data) ∧
    generate_xml_from_chunk_checked
      [⟨PdValue.str "JIDU6601", PdValue.str "A\x0bB", PdValue.str "R2.0.19"⟩]
      "JIDU6601" 1 = none := by
  refine ⟨by decide, by decide, by decide⟩

/-- C3 (amended): for a device model without newline and emitted serial
numbers containing neither newline nor carriage return, when expat accepts
the serialized tree (otherwise the call raises `ExpatError`, the `none`
branch of `generate_xml_from_chunk_checked`): parsing the rendered document
back yields exactly the triples `(Model, Manufacturer, serial-text)` for
the chunk's rows whose serial number trims to non-empty (`chunkSerials`),
in the chunk's original order, tagged with the chunk's device model and the
manufacturer resolved from `MANUFACTURER_MAP` (default `"Unknown"` for
unmapped models).  Two amendments: rows whose serial trims to empty are
skipped by the renderer, and a carriage return in a serial is normalized by
expat to a newline, splitting the element across lines; see the
counterexample. -/
theorem render_roundtrip (chunk : List Row) (m : String) (k : Nat)
    (hm : '\n' ∉ m.data)
    (hs : ∀ s ∈ chunkSerials chunk, '\n' ∉ s.data ∧ '\r' ∉ s.data)
    (hv : expatAccepts chunk m = true) :
    generate_xml_from_chunk_checked chunk m k =
      some (generate_xml_from_chunk chunk m k) ∧
    parseXmlDoc (generate_xml_from_chunk chunk m k) =
      some ((chunkSerials chunk).map
        (fun sn => (m, (MANUFACTURER_MAP.lookup m).getD "Unknown", sn))) := by
  have hs' : ∀ s ∈ chunkSerials chunk, '\n' ∉ eolNorm s.data := fun s h => by
    rw [eolNorm_of_no_cr _ (hs s h).2]
    exact (hs s h).1
  have hcr : ∀ s ∈ chunkSerials chunk, '\r' ∉ s.data := fun s h => (hs s h).2
  refine ⟨by rw [generate_xml_from_chunk_checked, if_pos hv], ?_⟩
  by_cases hc : (chunkSerials chunk).isEmpty
  · have hb : bodyLines chunk m = ["<serials/>".data] := by
      rw [bodyLines_of_no_cr chunk m hcr, if_pos hc]
    simp only [parseXmlDoc, generate_xml_splitNl chunk m k hm hs', hb]
    simp [List.isEmpty_iff.mp hc]
  · obtain ⟨s0, ss, hss⟩ : ∃ s0 ss, chunkSerials chunk = s0 :: ss := by
      cases hcc : chunkSerials chunk with
      | nil => rw [hcc] at hc; simp at hc
      | cons a b => exact ⟨a, b, rfl⟩
    have hb : bodyLines chunk m = "<serials>".data ::
        (serialLine m ((MANUFACTURER_MAP.lookup m).getD "Unknown") s0 ::
          (ss.map (serialLine m ((MANUFACTURER_MAP.lookup m).getD "Unknown")) ++
            ["</serials>".data])) := by
      rw [bodyLines_of_no_cr chunk m hcr, if_neg hc]
      simp [hss]
    simp only [parseXmlDoc, generate_xml_splitNl chunk m k hm hs', hb]
    rw [show serialLine m ((MANUFACTURER_MAP.lookup m).getD "Unknown") s0 ::
        (ss.map (serialLine m ((MANUFACTURER_MAP.lookup m).getD "Unknown")) ++
          ["</serials>".data]) =
        ((s0 :: ss).map
          (serialLine m ((MANUFACTURER_MAP.lookup m).getD "Unknown"))) ++
          ["</serials>".data] from by simp]
    rw [parseSerialLines_map, hss]
    simp

theorem render_roundtrip_witness :
    expatAccepts
      [⟨PdValue.str "JIDU6601", PdValue.str " SN1 ", PdValue.str "R2.0.19"⟩,
       ⟨PdValue.str "JIDU6601", PdValue.str "a&b", PdValue.str "R2.0.19"⟩]
      "JIDU6601" = true ∧
    parseXmlDoc (generate_xml_from_chunk
      [⟨PdValue.str "JIDU6601", PdValue.str " SN1 ", PdValue.str "R2.0.19"⟩,
       ⟨PdValue.str "JIDU6601", PdValue.str "a&b", PdValue.str "R2.0.19"⟩]
      "JIDU6601" 1) =
      some ((chunkSerials
        [⟨PdValue.str "JIDU6601", PdValue.str " SN1 ", PdValue.str "R2.0.19"⟩,
         ⟨PdValue.str "JIDU6601", PdValue.str "a&b", PdValue.str "R2.0.19"⟩]).map
        (fun sn =>
          ("JIDU6601", (MANUFACTURER_MAP.lookup "JIDU6601").getD "Unknown", sn))) :=
  ⟨by decide,
   (render_roundtrip _ "JIDU6601" 1 (by decide) (by decide) (by decide)).2⟩

/-- C3 counterexample: a chunk with one row whose serial number is all
whitespace renders to a childless document that parses back to zero
triples, while the trimmed serial numbers of the source chunk are `[""]`;
and for the serial `"A\rB"` (which contains no newline) expat's end-of-line
normalization splits the element across two lines, so the rendered document
does not read back as one triple per row either. -/
theorem render_roundtrip_counterexample :
    (parseXmlDoc (generate_xml_from_chunk
      [⟨PdValue.str "JIDU6601", PdValue.str "   ", PdValue.str "R2.0.19"⟩]
      "JIDU6601" 1) = some [] ∧
     ([⟨PdValue.str "JIDU6601", PdValue.str "   ", PdValue.str "R2.0.19"⟩] :
       List Row).map (fun r => pstrip (pyStr r.serialNumber)) = [""]) ∧
    parseXmlDoc (generate_xml_from_chunk
      [⟨PdValue.str "JIDU6601", PdValue.str "A\rB", PdValue.str "R2.0.19"⟩]
      "JIDU6601" 1) = none := by
  refine ⟨⟨by decide, by decide⟩, by decide⟩

/-- C7 (amended): validation succeeds for every table containing the three
required column names, whatever the extra columns, row count, or cell
types; the renderer coerces serial-number cells to their string form before
trimming; but the chunker's comparisons do not coerce: rows whose
`Device Model` or `Version` cell is a non-string are always dropped (the
pandas `.str` accessor yields `NaN` there, failing the equality and `isin`
tests), while a non-string `Serial Number` cell passes the chunker's
non-emptiness test (`NaN != ''` is true) and is rendered from its coerced
string form. -/
theorem coercion_behavior (df : DataFrame) (M : String) (a : List String)
    (s : Nat) (hsz : 0 < s) (r : Row) :
    ((∀ c ∈ required_columns, c ∈ df.columns) → (validate_data df).1 = true) ∧
    (((∃ x, r.deviceModel = PdValue.nonstr x) ∨
      (∃ x, r.version = PdValue.nonstr x)) →
      ∀ c ∈ create_chunks df M a s, r ∉ c) ∧
    (∀ x, r.serialNumber = PdValue.nonstr x →
      naNe (strStrip r.serialNumber) "" = true) ∧
    (∀ x, r.serialNumber = PdValue.nonstr x → ¬ (pstrip x).isEmpty = true →
      chunkSerials [r] = [pstrip x]) := by
  refine ⟨fun hall => ((validate_data_ok df).2.2).mpr hall, ?_, ?_, ?_⟩
  · rintro hx c hc hrc
    have hmem : r ∈ (create_chunks df M a s).flatten :=
      List.mem_flatten.mpr ⟨c, hc, hrc⟩
    rw [create_chunks_flatten df M a hsz] at hmem
    have hp := (List.mem_filter.mp hmem).2
    rcases hx with ⟨x, hx⟩ | ⟨x, hx⟩ <;>
      simp [rowPasses, hx, strStrip, naEq, naIsin] at hp
  · intro x hx
    simp [hx, strStrip, naNe]
  · intro x hx hne
    simp [chunkSerials, hx, pyStr, hne]

theorem coercion_behavior_witness :
    (validate_data ⟨required_columns,
      [⟨PdValue.nonstr "123", PdValue.str "SN1", PdValue.str "R2.0.19"⟩]⟩).1 =
      true :=
  (coercion_behavior
    ⟨required_columns,
      [⟨PdValue.nonstr "123", PdValue.str "SN1", PdValue.str "R2.0.19"⟩]⟩
    "123" ["R2.0.19"] 25000 (by decide)
    ⟨PdValue.nonstr "123", PdValue.str "SN1", PdValue.str "R2.0.19"⟩).1
    (by decide)

/-- C7 counterexample: a row whose `Device Model` cell is the non-string
value with string form `"123"` satisfies every condition of the claim after
string coercion for target model `"123"` (coerced trimmed model equals the
target, serial and version are non-empty, version is allowed), yet
`create_chunks` returns no chunk at all for it: the chunker's comparisons
never coerce the cell to a string. -/
theorem chunker_coercion_counterexample :
    pstrip (pyStr (PdValue.nonstr "123")) = "123" ∧
    pstrip (pyStr (PdValue.str "SN1")) ≠ "" ∧
    pstrip (pyStr (PdValue.str "R2.0.19")) ∈ ["R2.0.19"] ∧
    create_chunks ⟨required_columns,
      [⟨PdValue.nonstr "123", PdValue.str "SN1", PdValue.str "R2.0.19"⟩]⟩
      "123" ["R2.0.19"] 25000 = [] := by
  refine ⟨by decide, by decide, by decide, by decide⟩

end IduXml
